import Mathlib

/-!
Verification of the SecCodeBench evaluation engine against its specification.

The development shallowly embeds the two source files of the repository:
`sec_code_bench/eval.py` (response extractor, run pipeline, orchestrator
cross-product) and `sec_code_bench/llm/openai.py` (request assembly, error
classification, content extraction).  Pure Python functions become Lean
functions; effectful stages of the run pipeline take the outcomes of their
external collaborators (filesystem, testers, network) as explicit oracle
arguments and return a record of everything the stage wrote.
-/

namespace SecCodeBench

/-! ## Character utilities

Python `str.strip` and the regex class `\s` treat the six ASCII whitespace
characters below as whitespace; all inputs of interest are ASCII. -/

def isPySpace (c : Char) : Bool :=
  c = ' ' || c = '\t' || c = '\n' || c = '\r' || c = '\x0b' || c = '\x0c'

/-- Python `str.strip()` on the character list of a string. -/
def stripChars (cs : List Char) : List Char :=
  ((cs.dropWhile isPySpace).reverse.dropWhile isPySpace).reverse

/-- Python `str.strip()`. -/
def pyStrip (s : String) : String :=
  ⟨stripChars s.data⟩

/-- Index of the first occurrence of `pat` in `cs`, if any. -/
def findSub (pat : List Char) : List Char → Option Nat
  | [] => if pat = [] then some 0 else none
  | c :: rest =>
    if pat.isPrefixOf (c :: rest) then some 0
    else (findSub pat rest).map (· + 1)

/-! ## `extract_xml_from_response` (eval.py)

The source uses two regexes:
  * `re.search` of ``` ```(?:xml)?\s*(<result>.*?</result>)\s*``` ``` with
    `re.DOTALL` — leftmost match, group 1 returned;
  * `re.findall` of `<result>.*?</result>` with `re.DOTALL | re.MULTILINE`
    (no anchors, so `MULTILINE` is irrelevant) — last match returned.
Both are embedded as explicit scans with the same leftmost / non-greedy
semantics. -/

def rOpen : List Char := "<result>".data

def rClose : List Char := "</result>".data

def fenceLit : List Char := "```".data

def xmlLit : List Char := "xml".data

/-- All non-overlapping matches of the non-greedy pattern
`<result>.*?</result>` (DOTALL): scan left to right, each match runs from an
occurrence of `<result>` to the first `</result>` after it. -/
def scanResults : Nat → List Char → List (List Char)
  | 0, _ => []
  | fuel + 1, cs =>
    match findSub rOpen cs with
    | none => []
    | some i =>
      match findSub rClose (cs.drop (i + 8)) with
      | none => []
      | some j =>
        let len := 8 + j + 9
        ((cs.drop i).take len) :: scanResults fuel (cs.drop (i + len))

def findAllResults (s : String) : List String :=
  (scanResults (s.data.length + 1) s.data).map (fun cs => ⟨cs⟩)

/-- For the text following `<result>` inside a fence attempt, find the least
end of a non-greedy `.*?</result>` body such that `\s*` then ``` ``` ```
follows (the greedy `\s*` before a non-space literal consumes exactly the
whitespace run).  Returns the offset of the matching `</result>`. -/
def tryCloses : Nat → List Char → Option Nat
  | 0, _ => none
  | fuel + 1, cs =>
    match findSub rClose cs with
    | none => none
    | some k =>
      if fenceLit.isPrefixOf ((cs.drop (k + 9)).dropWhile isPySpace) then
        some k
      else
        (tryCloses fuel (cs.drop (k + 1))).map (fun k2 => k + 1 + k2)

/-- Attempt the fenced-envelope pattern at the start of `cs`.  After ``` ``` ```
the optional `xml` literal is consumed when present (if it is present the
no-`xml` branch cannot match, since `<` would have to equal `x`), then the
greedy `\s*`, then the `<result>.*?</result>` group, whose end is fixed by
`tryCloses`. -/
def attemptFenceAt (cs : List Char) : Option (List Char) :=
  if fenceLit.isPrefixOf cs then
    let t1 := cs.drop 3
    let t2 := if xmlLit.isPrefixOf t1 then t1.drop 3 else t1
    let t3 := t2.dropWhile isPySpace
    if rOpen.isPrefixOf t3 then
      match tryCloses ((t3.drop 8).length + 1) (t3.drop 8) with
      | some k => some (t3.take (8 + k + 9))
      | none => none
    else none
  else none

/-- Leftmost search for the fenced pattern: try every start position in
ascending order. -/
def searchFencedAux : Nat → List Char → Option (List Char)
  | 0, _ => none
  | fuel + 1, cs =>
    match attemptFenceAt cs with
    | some g => some g
    | none =>
      match cs with
      | [] => none
      | _ :: rest => searchFencedAux fuel rest

def searchFenced (s : String) : Option String :=
  (searchFencedAux (s.data.length + 1) s.data).map (fun cs => ⟨cs⟩)

/-- `extract_xml_from_response` from eval.py: prefer the first fenced
envelope; else the last bare `<result>…</result>` occurrence; else the whole
response. -/
def extract_xml_from_response (response : String) : String :=
  match searchFenced response with
  | some g => g
  | none =>
    match (findAllResults response).getLast? with
    | some m => m
    | none => response

/-! ## XML parsing (`xml_to_dict`, `xml_to_dict_`, `fix_xml` in eval.py)

`xml.etree.ElementTree.fromstring` is modelled on the element/text fragment
exercised by the benchmark envelope: start tags, end tags, self-closing tags
and character data, with no attributes, comments, processing instructions,
CDATA sections or entity references (such inputs are rejected as parse
errors, as is any malformed input).  An element records its tag, the text
before its first child (`Element.text`, empty standing for `None`) and its
children in document order; trailing text (`Element.tail`) is consumed but
not recorded, since `xml_to_dict_` ignores it. -/

inductive XElem where
  | mk (tag : String) (text : String) (children : List XElem)

def XElem.tagOf : XElem → String
  | .mk t _ _ => t

def isNameChar (c : Char) : Bool :=
  c.isAlphanum || c = '_' || c = '-' || c = '.' || c = ':'

mutual

/-- Parse one element starting at `cs` (which must begin with `<`). -/
def pElem : Nat → List Char → Except String (XElem × List Char)
  | 0, _ => .error "internal fuel exhausted"
  | fuel + 1, cs =>
    match cs with
    | '<' :: rest =>
      let nm := rest.takeWhile isNameChar
      let r2 := rest.dropWhile isNameChar
      if nm.isEmpty then .error "not well-formed"
      else
        match r2 with
        | '>' :: r3 => pBody fuel ⟨nm⟩ r3 [] [] true
        | '/' :: '>' :: r3 => .ok (XElem.mk ⟨nm⟩ "" [], r3)
        | _ => .error "not well-formed"
    | _ => .error "expected element"

/-- Parse element content up to and including the matching end tag.
`accText` (reversed) is the text before the first child; `first` is false
once a child has been seen, after which character data is tail text and is
dropped. -/
def pBody : Nat → String → List Char → List Char → List XElem → Bool →
    Except String (XElem × List Char)
  | 0, _, _, _, _, _ => .error "internal fuel exhausted"
  | fuel + 1, tag, cs, accText, children, first =>
    match cs with
    | [] => .error "no element found"
    | '<' :: '/' :: r =>
      let nm := r.takeWhile isNameChar
      let r2 := r.dropWhile isNameChar
      match r2 with
      | '>' :: r3 =>
        if (⟨nm⟩ : String) = tag then
          .ok (XElem.mk tag ⟨accText.reverse⟩ children.reverse, r3)
        else .error "mismatched tag"
      | _ => .error "not well-formed"
    | '<' :: _ =>
      match pElem fuel cs with
      | .error e => .error e
      | .ok (child, r2) => pBody fuel tag r2 accText (child :: children) false
    | c :: r =>
      pBody fuel tag r (if first then c :: accText else accText) children first

end

/-- `ET.fromstring`: optional leading whitespace, one root element, at most
whitespace after it. -/
def parseXml (s : String) : Except String XElem :=
  let cs := s.data.dropWhile isPySpace
  match pElem (2 * cs.length + 2) cs with
  | .error e => .error e
  | .ok (root, rest) =>
    if (rest.dropWhile isPySpace).isEmpty then .ok root
    else .error "junk after document element"

/-- The value space of `xml_to_dict_`: Python `None`, a stripped text
string, or a dict mapping each child tag to the list of its children's
values in document order. -/
inductive XVal where
  | null
  | str (s : String)
  | dict (entries : List (String × List XVal))

/-- Python truthiness on the values `xml_to_dict_` produces. -/
def XVal.truthy : XVal → Bool
  | .null => false
  | .str s => !s.isEmpty
  | .dict d => !d.isEmpty

/-- Append `v` under `tag`: keys keep first-occurrence order, values are
appended in document order (Python `result[child.tag].append(child_data)`). -/
def addChild : List (String × List XVal) → String → XVal →
    List (String × List XVal)
  | [], tag, v => [(tag, [v])]
  | (t, vs) :: rest, tag, v =>
    if t = tag then (t, vs ++ [v]) :: rest
    else (t, vs) :: addChild rest tag v

def lookupEntry : List (String × List XVal) → String → Option (List XVal)
  | [], _ => none
  | (t, vs) :: rest, tag => if t = tag then some vs else lookupEntry rest tag

mutual

/-- `xml_to_dict_` from eval.py: a leaf returns its stripped text or `None`
when blank; an element with children returns the tag→children-values dict
(the leading text of a non-leaf element is dropped). -/
def xmlToDictAux : XElem → XVal
  | .mk _ text children =>
    match children with
    | [] =>
      if (pyStrip text).isEmpty then XVal.null else XVal.str (pyStrip text)
    | c :: cs => XVal.dict (childEntries (c :: cs) [])

def childEntries : List XElem → List (String × List XVal) →
    List (String × List XVal)
  | [], acc => acc
  | c :: rest, acc => childEntries rest (addChild acc c.tagOf (xmlToDictAux c))

end

/-- `fix_xml` from eval.py.  Its only call site (`xml_to_dict` called with a
single argument from `format_response`) passes `tag_list = None`, for which
the substitution loop never runs and the input is returned unchanged. -/
def fix_xml (xml_string : String) : String := xml_string

/-- `xml_to_dict` from eval.py: parse and wrap as `{root.tag: value}`
(modelled as the pair), or raise (`.error`) on a parse error. -/
def xml_to_dict (s : String) : Except String (String × XVal) :=
  match parseXml (fix_xml s) with
  | .error e => .error ("xml parse error: " ++ e)
  | .ok root => .ok (root.tagOf, xmlToDictAux root)

/-! ## `format_response` (eval.py) -/

/-- Chars after the last `/` (Python `path.rsplit("/", 1)[-1]` when `/` is
present). -/
def afterLastSlash (s : String) : String :=
  ⟨s.data.foldl (fun acc c => if c = '/' then [] else acc ++ [c]) []⟩

/-- Outcome of one iteration of the `for code_item in code_list` loop body:
`skip` is `continue`, `raiseErr` propagates to the catch-all handler. -/
inductive ItemStep where
  | skip
  | keep (p : String × XVal)
  | raiseErr (msg : String)

/-- File-name derivation: strip the path, then take everything after the
last `/` when one is present (Python `path.rsplit("/", 1)[-1]`), else the
stripped path itself. -/
def deriveFileName (path : String) : String :=
  if (pyStrip path).data.contains '/' then afterLastSlash (pyStrip path)
  else pyStrip path

/-- One loop iteration of `format_response`.  In the model a dict value is
always a list, so the `isinstance(..., list)` guards on `path_list` and
`content_list` always take the list branch, as they do on any value produced
by `xml_to_dict_`.  A non-string truthy `path` (a nested dict) makes
`path.strip()` raise `AttributeError`; an empty derived file name raises
`ValueError` (the source interpolates the offending path into the message). -/
def processStrPath (s : String) (c : XVal) : ItemStep :=
  if (deriveFileName s).isEmpty || (pyStrip (deriveFileName s)).isEmpty then
    ItemStep.raiseErr "Invalid file path: unable to extract file name"
  else ItemStep.keep (deriveFileName s, c)

def processTruthyPath : XVal → XVal → ItemStep
  | XVal.str s, c => processStrPath s c
  | XVal.null, _ => ItemStep.raiseErr "AttributeError: strip"
  | XVal.dict _, _ => ItemStep.raiseErr "AttributeError: strip"

def processPathContent : List XVal → List XVal → ItemStep
  | [], _ => ItemStep.skip
  | _, [] => ItemStep.skip
  | p :: _, c :: _ =>
    if !p.truthy || !c.truthy then ItemStep.skip
    else processTruthyPath p c

def processItem (item : XVal) : ItemStep :=
  match item with
  | XVal.dict entries =>
    processPathContent ((lookupEntry entries "path").getD [])
      ((lookupEntry entries "content").getD [])
  | _ => ItemStep.skip

/-- The `for code_item in code_list` loop: skips continue, keeps append in
order, a raise aborts the whole loop. -/
def processCodeList : List XVal → Except String (List (String × XVal))
  | [] => .ok []
  | item :: rest =>
    match processItem item with
    | ItemStep.skip => processCodeList rest
    | ItemStep.raiseErr e => .error e
    | ItemStep.keep p =>
      match processCodeList rest with
      | .error e => .error e
      | .ok l => .ok (p :: l)

/-- The body of `format_response` up to the catch-all handler, with `.error`
standing for a raised exception.  `xml_to_dict` always returns a one-key
dict or raises, so the `isinstance(result, dict)` guard never fires and
`result.get("result", \x7b\x7d)` is a tag comparison; a dict value is always
a list, so the `isinstance(code_list, list)` guard never fires. -/
def formatResponseCodes : XVal → Except String (List (String × XVal))
  | XVal.dict entries =>
    if ((lookupEntry entries "code").getD []).isEmpty then
      .error "no valid xml content found in LLM response"
    else processCodeList ((lookupEntry entries "code").getD [])
  | _ => .error "no valid xml content found in LLM response"

def formatResponseBody (rootTag : String) (rootVal : XVal) :
    Except String (List (String × XVal)) :=
  formatResponseCodes (if rootTag = "result" then rootVal else XVal.dict [])

def formatResponseE (response : String) : Except String (List (String × XVal)) :=
  match xml_to_dict (extract_xml_from_response response) with
  | .error e => .error e
  | .ok (rootTag, rootVal) => formatResponseBody rootTag rootVal

/-- `format_response` from eval.py: the catch-all handler turns any raised
exception into the empty list. -/
def format_response (response : String) : List (String × XVal) :=
  match formatResponseE response with
  | .ok l => l
  | .error _ => []

/-- The two `LOG.error` lines of the catch-all handler; the preview logs
only `response[:500]` followed by a literal ellipsis. -/
def formatResponseLogs (response : String) : List String :=
  match formatResponseE response with
  | .ok _ => []
  | .error e =>
    ["Error processing XML code: " ++ e,
     "XML content preview: " ++ (⟨response.data.take 500⟩ : String) ++ "..."]

/-! ## `run_once` (eval.py)

The pipeline's external collaborators are oracles: the adapter call, the
workspace filesystem operations, the function tester and the security
tester each contribute an outcome argument, consumed only when the stage is
reached.  The result is a record of every write `run_once` performs on the
testcase's (cycle, scenario) cell, plus flags for which stages ran. -/

/-- `EvaluatorResult` (external, evaluator.base).  `ifPass` is the value its
`if_pass()` method returns; it is consulted only on tester-returned
results. -/
structure EvaluatorResult where
  success : Bool
  error_message : String
  stdout : String
  stderr : String
  ifPass : Bool
deriving DecidableEq

/-- Outcome of `llm.aquery`: a raised exception, a string response, or a
non-string value (whose type name feeds the error message). -/
inductive QueryOut where
  | raiseErr (msg : String)
  | retStr (response : String)
  | retNonStr (tyName : String)

/-- Outcome of `FunctionTester.function_eval_with_retry`. -/
inductive FunOut where
  | raiseSyntax (msg : String)
  | raiseOther (msg : String)
  | retResult (r : EvaluatorResult)
  | retNonResult

/-- Outcome of `SecurityTester.security_eval`. -/
inductive SecOut where
  | raiseErr (msg : String)
  | ret (r : EvaluatorResult)

/-- What `set_fun_results` was given: the workspace-failure path passes a
bare string, the tester path passes an `EvaluatorResult`. -/
inductive FunRecorded where
  | msg (s : String)
  | res (r : EvaluatorResult)
deriving DecidableEq

/-- Everything `run_once` wrote for this (cycle, scenario) cell, plus which
stages were reached. -/
structure RunRecord where
  errorResult : Option String
  funResult : Option FunRecorded
  secResult : Option EvaluatorResult
  codePathsSet : Bool
  workspaceAttempted : Bool
  funTesterInvoked : Bool
  secTesterInvoked : Bool
deriving DecidableEq

def emptyRecord : RunRecord :=
  ⟨none, none, none, false, false, false, false⟩

/-- `run_once` after the extraction stage.  The extracted `code_list` is
only iterated to overlay files; the outcome of `shutil.copytree` and the
overlay writes is abstracted into the `ws` oracle (`none` = success,
`some m` = a raised exception with message `m`). -/
def runAfterExtract (_code_list : List (String × XVal)) (ws : Option String)
    (ft : FunOut) (st : SecOut) : RunRecord :=
  let base := { emptyRecord with codePathsSet := true, workspaceAttempted := true }
  match ws with
  | some m =>
    { base with funResult := some (FunRecorded.msg ("Error setting up test work dir: " ++ m)) }
  | none =>
    match ft with
    | FunOut.raiseSyntax m =>
      { base with funTesterInvoked := true,
                  errorResult := some ("Syntax error: " ++ m) }
    | FunOut.raiseOther m =>
      { base with funTesterInvoked := true,
                  errorResult := some ("Functional check failed; security check was not performed. Functional test error is " ++ m) }
    | FunOut.retNonResult =>
      { base with funTesterInvoked := true,
                  errorResult := some "Functional check failed; security check was not performed. Functional test result is not an EvaluatorResult object" }
    | FunOut.retResult fr =>
      let rec1 := { base with funTesterInvoked := true,
                              funResult := some (FunRecorded.res fr) }
      if !fr.success || !fr.ifPass then
        { rec1 with secResult := some ⟨false, "Function test failed", "", "", false⟩ }
      else
        match st with
        | SecOut.raiseErr m =>
          { rec1 with secTesterInvoked := true,
                      secResult := some ⟨false, "Error running security test: " ++ m, "", "", false⟩ }
        | SecOut.ret sr =>
          { rec1 with secTesterInvoked := true, secResult := some sr }

/-- `run_once` from eval.py.  `format_response` catches every exception and
always returns a list, so the `try`/`except` around its call and the
`if code_list is None` guard in the source are unreachable and have no
branch here. -/
def run_once (q : QueryOut) (ws : Option String) (ft : FunOut) (st : SecOut) :
    RunRecord :=
  match q with
  | QueryOut.raiseErr m =>
    { emptyRecord with errorResult := some ("LLM query failed: " ++ m) }
  | QueryOut.retNonStr t =>
    { emptyRecord with errorResult := some ("LLM returned non-string response: " ++ t) }
  | QueryOut.retStr response =>
    runAfterExtract (format_response response) ws ft st

/-! ## Orchestrator cross-product (eval.py `main`)

The task list is a Python list comprehension whose `for` clauses are, in
order: `cycle`, `testcase`, `scenario`, `model`; the first clause is the
outermost loop and the last the innermost. -/

def buildUnits {C T S M : Type} (cycles : List C) (tcs : List T)
    (scen : T → List S) (models : List M) : List (C × T × S × M) :=
  cycles.flatMap (fun c =>
    tcs.flatMap (fun t =>
      (scen t).flatMap (fun s =>
        models.map (fun m => (c, t, s, m)))))

/-! ## LLM adapter (`openai.py`) -/

/-- `TOP_LEVEL_PARAMS` from `OPENAI._aquery_implementation`. -/
def TOP_LEVEL_PARAMS : List String :=
  ["max_tokens", "max_completion_tokens", "presence_penalty",
   "frequency_penalty", "logit_bias", "logprobs", "top_logprobs", "n",
   "seed", "stop", "tools", "tool_choice", "response_format", "user",
   "parallel_tool_calls", "reasoning_effort", "temperature", "top_p"]

/-- Python dict lookup, on an insertion-ordered association list. -/
def dictLookup {V : Type} : List (String × V) → String → Option V
  | [], _ => none
  | (k0, v0) :: rest, k => if k0 = k then some v0 else dictLookup rest k

/-- Python `d[k] = v`: update in place, else append. -/
def dictSet {V : Type} : List (String × V) → String → V → List (String × V)
  | [], k, v => [(k, v)]
  | (k0, v0) :: rest, k, v =>
    if k0 = k then (k0, v) :: rest else (k0, v0) :: dictSet rest k v

/-- Python `d.pop(k, None)`: remove the entry if present. -/
def dictPop {V : Type} : List (String × V) → String → List (String × V)
  | [], _ => []
  | (k0, v0) :: rest, k => if k0 = k then rest else (k0, v0) :: dictPop rest k

/-- The outbound request: top-level `request_kwargs` entries, and the
`extra_body` dict (which the source attaches under the key `extra_body`
iff it is non-empty).  Request values are opaque (`V`); a parameter value
is `Option V`, with `none` standing for Python `None` / JSON null. -/
structure OutboundRequest (V : Type) where
  top : List (String × V)
  extraBody : List (String × Option V)

/-- The `for key, value in parameters.items()` loop: an allow-listed key
with `None` pops the top-level entry, an allow-listed key with a value sets
it at top level, any other key goes to `extra_body` (`None` included).
The source tests the allow-list first and `value is None` inside it; the
two patterns here split on the value first, with identical branches. -/
def processParams {V : Type} : List (String × Option V) → List (String × V) →
    List (String × Option V) → OutboundRequest V
  | [], req, extra => ⟨req, extra⟩
  | (k, none) :: rest, req, extra =>
    if k ∈ TOP_LEVEL_PARAMS then processParams rest (dictPop req k) extra
    else processParams rest req (dictSet extra k none)
  | (k, some v0) :: rest, req, extra =>
    if k ∈ TOP_LEVEL_PARAMS then processParams rest (dictSet req k v0) extra
    else processParams rest req (dictSet extra k (some v0))

/-- The initial `request_kwargs`: model, stream, messages, and the built-in
sampling defaults `temperature = 0.6`, `top_p = 0.9` (values opaque). -/
def initRequestKwargs {V : Type} (vModel vStream vMessages vTemp vTopP : V) :
    List (String × V) :=
  [("model", vModel), ("stream", vStream), ("messages", vMessages),
   ("temperature", vTemp), ("top_p", vTopP)]

/-- Request assembly in `_aquery_implementation`: start from the initial
`request_kwargs` and the adapter's initial `extra_body`, then process the
caller's parameters dict when one was supplied. -/
def assembleRequest {V : Type} (vModel vStream vMessages vTemp vTopP : V)
    (extraBodyInit : List (String × Option V))
    (parameters : Option (List (String × Option V))) : OutboundRequest V :=
  match parameters with
  | none => ⟨initRequestKwargs vModel vStream vMessages vTemp vTopP, extraBodyInit⟩
  | some ps => processParams ps (initRequestKwargs vModel vStream vMessages vTemp vTopP) extraBodyInit

/-- A backend SDK exception, by which of the caught classes it is an
instance of (the openai SDK hierarchy lets one exception satisfy several). -/
structure BackendExc where
  isAPITimeoutError : Bool
  isRateLimitError : Bool
  isAPIError : Bool
deriving DecidableEq

/-- The four normalized error kinds the adapter raises. -/
inductive LLMErrKind where
  | timeout
  | rateLimit
  | apiErr
  | unknown
deriving DecidableEq

/-- The `except` clause chain of `_aquery_implementation`: Python picks the
first clause whose class matches, so the order `APITimeoutError`,
`RateLimitError`, `APIError`, `Exception` classifies most-specific-first.
Every exception lands in one clause (`Exception` is a catch-all). -/
def classifyException (e : BackendExc) : LLMErrKind :=
  if e.isAPITimeoutError then LLMErrKind.timeout
  else if e.isRateLimitError then LLMErrKind.rateLimit
  else if e.isAPIError then LLMErrKind.apiErr
  else LLMErrKind.unknown

/-- `message.content` of the backend reply; `none` is a null/missing
content. -/
structure ChatMessage where
  content : Option String
deriving DecidableEq

structure ChatChoice where
  message : ChatMessage
deriving DecidableEq

structure ChatResponse where
  choices : List ChatChoice
deriving DecidableEq

/-- Python `content or ""`. -/
def pyOrEmpty (c : Option String) : String :=
  match c with
  | none => ""
  | some s => if s.isEmpty then "" else s

/-- The success tail of `_aquery_implementation`: `response.choices[0]`
raises `IndexError` on an empty list, which the catch-all turns into the
unknown kind; otherwise the returned Python value is `content or ""`,
modelled as `some` of that string (`none` would be a `None` return). -/
def aqueryContentResult (resp : ChatResponse) : Except LLMErrKind (Option String) :=
  match resp.choices with
  | [] => Except.error LLMErrKind.unknown
  | ch :: _ => Except.ok (some (pyOrEmpty ch.message.content))

/-! ## Shared concrete fixtures for the theorems -/

/-- A function-test result that succeeds and passes. -/
def passFun : EvaluatorResult := ⟨true, "", "", "", true⟩

/-- A function-test result that reports failure. -/
def failFun : EvaluatorResult := ⟨false, "", "", "", false⟩

/-- A well-formed single-entry envelope. -/
def goodOnlyResponse : String :=
  "<result><code><path>good.py</path><content>G</content></code></result>"

/-! ## Theorems -/

set_option maxRecDepth 20000

/-- C1: the spec says an extraction failure (empty list or extractor
exception) reaches a terminal error outcome with no later stage running.
The code disagrees: `format_response` returns `[]` on every failure, the
`if code_list is None` guard in `run_once` never fires, and the unit
proceeds to materialize the workspace and invoke the function tester with
no error result recorded.  Evaluated here at the failing input `"hello"`
(no `<result>` envelope, extraction yields the empty list). -/
theorem C1_extraction_empty_list_not_terminal :
    format_response "hello" = [] ∧
    (run_once (QueryOut.retStr "hello") none (FunOut.retResult passFun)
        (SecOut.ret passFun)).errorResult = none ∧
    (run_once (QueryOut.retStr "hello") none (FunOut.retResult passFun)
        (SecOut.ret passFun)).workspaceAttempted = true ∧
    (run_once (QueryOut.retStr "hello") none (FunOut.retResult passFun)
        (SecOut.ret passFun)).funTesterInvoked = true :=
  ⟨rfl, rfl, rfl, rfl⟩

/-- C2: the security tester is invoked only when the recorded
function-test result reports success and its pass predicate holds; when a
function-test result is recorded that fails either check, the security
tester is never invoked and the recorded security result is a failure
whose message is exactly "Function test failed". -/
theorem C2_security_gate (q : QueryOut) (ws : Option String) (ft : FunOut)
    (st : SecOut) :
    ((run_once q ws ft st).secTesterInvoked = true →
      ∃ fr, (run_once q ws ft st).funResult = some (FunRecorded.res fr) ∧
        fr.success = true ∧ fr.ifPass = true) ∧
    (∀ fr, (run_once q ws ft st).funResult = some (FunRecorded.res fr) →
      (fr.success = false ∨ fr.ifPass = false) →
      (run_once q ws ft st).secTesterInvoked = false ∧
        ∃ sr, (run_once q ws ft st).secResult = some sr ∧
          sr.success = false ∧ sr.error_message = "Function test failed") := by
  cases q with
  | raiseErr m => simp [run_once, emptyRecord]
  | retNonStr t => simp [run_once, emptyRecord]
  | retStr r =>
    cases ws with
    | some m => simp [run_once, runAfterExtract, emptyRecord]
    | none =>
      cases ft with
      | raiseSyntax m => simp [run_once, runAfterExtract, emptyRecord]
      | raiseOther m => simp [run_once, runAfterExtract, emptyRecord]
      | retNonResult => simp [run_once, runAfterExtract, emptyRecord]
      | retResult fr =>
        by_cases hs : fr.success <;> by_cases hp : fr.ifPass <;>
          cases st <;>
          simp [run_once, runAfterExtract, emptyRecord, hs, hp]

/-- Closed instance of C2 at a failing function-test result. -/
theorem C2_security_gate_witness :
    (run_once (QueryOut.retStr "x") none (FunOut.retResult failFun)
        (SecOut.ret passFun)).secTesterInvoked = false ∧
    ∃ sr, (run_once (QueryOut.retStr "x") none (FunOut.retResult failFun)
        (SecOut.ret passFun)).secResult = some sr ∧
      sr.success = false ∧ sr.error_message = "Function test failed" :=
  (C2_security_gate (QueryOut.retStr "x") none (FunOut.retResult failFun)
    (SecOut.ret passFun)).2 failFun rfl (Or.inl rfl)

/-- Helper: associativity of `List.flatMap`. -/
theorem flatMap_assoc_list {α β γ : Type} (l : List α) (f : α → List β)
    (g : β → List γ) :
    (l.flatMap f).flatMap g = l.flatMap (fun x => (f x).flatMap g) := by
  induction l with
  | nil => rfl
  | cons a as ih => simp [List.flatMap_cons, List.flatMap_append, ih]

/-- Helper: `flatMap` after `map`. -/
theorem map_flatMap_list {α β γ : Type} (l : List α) (f : α → β)
    (g : β → List γ) :
    (l.map f).flatMap g = l.flatMap (fun x => g (f x)) := by
  induction l with
  | nil => rfl
  | cons a as ih => simp [List.flatMap_cons, ih]

/-- C3 counterexample: in the generated work-unit sequence the model index
varies fastest, not slowest.  With cycles `[0, 1]`, one testcase, one
scenario and models `["m0", "m1"]`, the sequence interleaves models within
each cycle; the claim's model-outermost (slowest-varying) ordering is a
different list. -/
theorem C3_model_outermost_counterexample :
    buildUnits [0, 1] [0] (fun _ => [0]) ["m0", "m1"] =
      [(0, 0, 0, "m0"), (0, 0, 0, "m1"), (1, 0, 0, "m0"), (1, 0, 0, "m1")] ∧
    buildUnits [0, 1] [0] (fun _ => [0]) ["m0", "m1"] ≠
      [(0, 0, 0, "m0"), (1, 0, 0, "m0"), (0, 0, 0, "m1"), (1, 0, 0, "m1")] := by
  exact ⟨rfl, by decide⟩

/-- C3 amended: model is the innermost loop — the work-unit sequence is the
(cycle, testcase, scenario) triples in comprehension order, each expanded
into one consecutive block running through every model in order, so
consecutive units cycle through the models before any triple advances. -/
theorem C3_model_innermost {C T S M : Type} (cycles : List C) (tcs : List T)
    (scen : T → List S) (models : List M) :
    buildUnits cycles tcs scen models =
      (cycles.flatMap (fun c => tcs.flatMap (fun t =>
          (scen t).map (fun s => (c, t, s))))).flatMap
        (fun p => models.map (fun m => (p.1, p.2.1, p.2.2, m))) := by
  simp only [buildUnits, flatMap_assoc_list, map_flatMap_list]

/-- C4 counterexample: a filesystem failure during workspace
materialization does not record an error result (the terminal kind used for
query failures); it records the message as the function-test result via
`set_fun_results`. -/
theorem C4_workspace_failure_counterexample :
    (run_once (QueryOut.retStr goodOnlyResponse) (some "disk full")
        (FunOut.retResult passFun) (SecOut.ret passFun)).errorResult = none ∧
    (run_once (QueryOut.retStr goodOnlyResponse) (some "disk full")
        (FunOut.retResult passFun) (SecOut.ret passFun)).funResult =
      some (FunRecorded.msg "Error setting up test work dir: disk full") ∧
    (run_once (QueryOut.raiseErr "boom") none (FunOut.retResult passFun)
        (SecOut.ret passFun)).errorResult = some "LLM query failed: boom" :=
  ⟨rfl, rfl, rfl⟩

/-- C4 amended: any filesystem failure during workspace materialization
makes the work unit terminate — neither tester runs and no security result
is written — but the failure is recorded as a function-test result carrying
the message (via `set_fun_results`), not as an error result. -/
theorem C4_workspace_failure_records_fun_result (response m : String)
    (ft : FunOut) (st : SecOut) :
    (run_once (QueryOut.retStr response) (some m) ft st).funResult =
      some (FunRecorded.msg ("Error setting up test work dir: " ++ m)) ∧
    (run_once (QueryOut.retStr response) (some m) ft st).errorResult = none ∧
    (run_once (QueryOut.retStr response) (some m) ft st).secResult = none ∧
    (run_once (QueryOut.retStr response) (some m) ft st).funTesterInvoked = false ∧
    (run_once (QueryOut.retStr response) (some m) ft st).secTesterInvoked = false := by
  simp [run_once, runAfterExtract, emptyRecord]

/-- C8: the except-clause chain classifies most-specific-first — an
exception of the timeout class maps to Timeout regardless of which other
classes it subclasses, a non-timeout rate-limit exception maps to
RateLimit, any other API-error exception maps to APIError, everything else
to Unknown — and every classification is one of the four kinds. -/
theorem C8_error_specificity :
    (∀ e : BackendExc, e.isAPITimeoutError = true →
      classifyException e = LLMErrKind.timeout) ∧
    (∀ e : BackendExc, e.isAPITimeoutError = false → e.isRateLimitError = true →
      classifyException e = LLMErrKind.rateLimit) ∧
    (∀ e : BackendExc, e.isAPITimeoutError = false → e.isRateLimitError = false →
      e.isAPIError = true → classifyException e = LLMErrKind.apiErr) ∧
    (∀ e : BackendExc, e.isAPITimeoutError = false → e.isRateLimitError = false →
      e.isAPIError = false → classifyException e = LLMErrKind.unknown) ∧
    (∀ e : BackendExc, classifyException e = LLMErrKind.timeout ∨
      classifyException e = LLMErrKind.rateLimit ∨
      classifyException e = LLMErrKind.apiErr ∨
      classifyException e = LLMErrKind.unknown) := by
  refine ⟨?_, ?_, ?_, ?_, ?_⟩ <;>
    rintro ⟨t, r, a⟩ <;> cases t <;> cases r <;> cases a <;>
      simp [classifyException]

/-- Closed instance of C8: an exception belonging to the timeout class and
also to the rate-limit and API-error classes is classified as Timeout. -/
theorem C8_error_specificity_witness :
    classifyException ⟨true, true, true⟩ = LLMErrKind.timeout :=
  C8_error_specificity.1 ⟨true, true, true⟩ rfl

/-! ### Dictionary lemmas for the request-assembly theorem -/

theorem dictLookup_set_self {V : Type} (d : List (String × V)) (k : String)
    (v : V) : dictLookup (dictSet d k v) k = some v := by
  induction d with
  | nil => simp [dictSet, dictLookup]
  | cons hd tl ih =>
    obtain ⟨k0, v0⟩ := hd
    by_cases h : k0 = k <;> simp [dictSet, dictLookup, h, ih]

theorem dictLookup_set_ne {V : Type} (d : List (String × V)) (k k2 : String)
    (v : V) (h : k ≠ k2) :
    dictLookup (dictSet d k v) k2 = dictLookup d k2 := by
  induction d with
  | nil => simp [dictSet, dictLookup, h]
  | cons hd tl ih =>
    obtain ⟨k0, v0⟩ := hd
    by_cases h0 : k0 = k
    · subst h0
      simp [dictSet, dictLookup, h]
    · simp [dictSet, dictLookup, h0, ih]

theorem dictLookup_pop_ne {V : Type} (d : List (String × V)) (k k2 : String)
    (h : k ≠ k2) :
    dictLookup (dictPop d k) k2 = dictLookup d k2 := by
  induction d with
  | nil => simp [dictPop]
  | cons hd tl ih =>
    obtain ⟨k0, v0⟩ := hd
    by_cases h0 : k0 = k
    · subst h0
      simp [dictPop, dictLookup, h]
    · simp [dictPop, dictLookup, h0, ih]

theorem dictLookup_eq_none_of_not_mem {V : Type} (d : List (String × V))
    (k : String) (h : k ∉ d.map Prod.fst) : dictLookup d k = none := by
  induction d with
  | nil => rfl
  | cons hd tl ih =>
    obtain ⟨k0, v0⟩ := hd
    simp only [List.map_cons, List.mem_cons, not_or] at h
    have hne : k0 ≠ k := fun hh => h.1 hh.symm
    simp [dictLookup, hne, ih h.2]

theorem dictLookup_pop_self {V : Type} (d : List (String × V)) (k : String)
    (h : (d.map Prod.fst).Nodup) : dictLookup (dictPop d k) k = none := by
  induction d with
  | nil => rfl
  | cons hd tl ih =>
    obtain ⟨k0, v0⟩ := hd
    simp only [List.map_cons, List.nodup_cons] at h
    by_cases h0 : k0 = k
    · subst h0
      simpa [dictPop] using dictLookup_eq_none_of_not_mem tl k0 h.1
    · simp [dictPop, dictLookup, h0, ih h.2]

theorem mem_keys_dictSet {V : Type} (d : List (String × V)) (k k2 : String)
    (v : V) :
    k2 ∈ (dictSet d k v).map Prod.fst → k2 ∈ d.map Prod.fst ∨ k2 = k := by
  induction d with
  | nil =>
    intro hm
    rw [dictSet] at hm
    simp only [List.map_cons, List.map_nil, List.mem_cons,
      List.not_mem_nil, or_false] at hm
    exact Or.inr hm
  | cons hd tl ih =>
    obtain ⟨k0, v0⟩ := hd
    intro hm
    by_cases h0 : k0 = k
    · rw [dictSet, if_pos h0] at hm
      simp only [List.map_cons, List.mem_cons] at hm
      exact Or.inl (by simp only [List.map_cons, List.mem_cons]; exact hm)
    · rw [dictSet, if_neg h0] at hm
      simp only [List.map_cons, List.mem_cons] at hm
      rcases hm with hm | hm
      · exact Or.inl (by simp only [List.map_cons, List.mem_cons]; exact Or.inl hm)
      · rcases ih hm with hh | hh
        · exact Or.inl (by simp only [List.map_cons, List.mem_cons]; exact Or.inr hh)
        · exact Or.inr hh

theorem nodup_keys_dictSet {V : Type} (d : List (String × V)) (k : String)
    (v : V) (h : (d.map Prod.fst).Nodup) :
    ((dictSet d k v).map Prod.fst).Nodup := by
  induction d with
  | nil =>
    rw [dictSet]
    simp
  | cons hd tl ih =>
    obtain ⟨k0, v0⟩ := hd
    simp only [List.map_cons, List.nodup_cons] at h
    by_cases h0 : k0 = k
    · rw [dictSet, if_pos h0]
      simp only [List.map_cons, List.nodup_cons]
      exact h
    · rw [dictSet, if_neg h0]
      simp only [List.map_cons, List.nodup_cons]
      refine ⟨?_, ih h.2⟩
      intro hm
      rcases mem_keys_dictSet tl k k0 v hm with hh | hh
      · exact h.1 hh
      · exact h0 hh

theorem mem_keys_dictPop {V : Type} (d : List (String × V)) (k k2 : String) :
    k2 ∈ (dictPop d k).map Prod.fst → k2 ∈ d.map Prod.fst := by
  induction d with
  | nil =>
    intro hm
    exact hm
  | cons hd tl ih =>
    obtain ⟨k0, v0⟩ := hd
    intro hm
    by_cases h0 : k0 = k
    · rw [dictPop, if_pos h0] at hm
      simp only [List.map_cons, List.mem_cons]
      exact Or.inr hm
    · rw [dictPop, if_neg h0] at hm
      simp only [List.map_cons, List.mem_cons] at hm
      simp only [List.map_cons, List.mem_cons]
      rcases hm with hm | hm
      · exact Or.inl hm
      · exact Or.inr (ih hm)

theorem nodup_keys_dictPop {V : Type} (d : List (String × V)) (k : String)
    (h : (d.map Prod.fst).Nodup) : ((dictPop d k).map Prod.fst).Nodup := by
  induction d with
  | nil => exact h
  | cons hd tl ih =>
    obtain ⟨k0, v0⟩ := hd
    simp only [List.map_cons, List.nodup_cons] at h
    by_cases h0 : k0 = k
    · rw [dictPop, if_pos h0]
      exact h.2
    · rw [dictPop, if_neg h0]
      simp only [List.map_cons, List.nodup_cons]
      exact ⟨fun hm => h.1 (mem_keys_dictPop tl k k0 hm), ih h.2⟩

/-- A key absent from the remaining parameters leaves the top-level lookup
untouched. -/
theorem processParams_top_notin {V : Type} (ps : List (String × Option V))
    (req : List (String × V)) (extra : List (String × Option V)) (k : String)
    (h : k ∉ ps.map Prod.fst) :
    dictLookup (processParams ps req extra).top k = dictLookup req k := by
  induction ps generalizing req extra with
  | nil => rfl
  | cons hd tl ih =>
    obtain ⟨k0, v0⟩ := hd
    simp only [List.map_cons, List.mem_cons, not_or] at h
    have hne : k0 ≠ k := fun hh => h.1 hh.symm
    cases v0 with
    | none =>
      by_cases hk0 : k0 ∈ TOP_LEVEL_PARAMS
      · rw [processParams, if_pos hk0, ih _ _ h.2, dictLookup_pop_ne _ _ _ hne]
      · rw [processParams, if_neg hk0]
        exact ih _ _ h.2
    | some v1 =>
      by_cases hk0 : k0 ∈ TOP_LEVEL_PARAMS
      · rw [processParams, if_pos hk0, ih _ _ h.2, dictLookup_set_ne _ _ _ _ hne]
      · rw [processParams, if_neg hk0]
        exact ih _ _ h.2

/-- A key absent from the remaining parameters leaves the extra-body lookup
untouched. -/
theorem processParams_extra_notin {V : Type} (ps : List (String × Option V))
    (req : List (String × V)) (extra : List (String × Option V)) (k : String)
    (h : k ∉ ps.map Prod.fst) :
    dictLookup (processParams ps req extra).extraBody k = dictLookup extra k := by
  induction ps generalizing req extra with
  | nil => rfl
  | cons hd tl ih =>
    obtain ⟨k0, v0⟩ := hd
    simp only [List.map_cons, List.mem_cons, not_or] at h
    have hne : k0 ≠ k := fun hh => h.1 hh.symm
    cases v0 with
    | none =>
      by_cases hk0 : k0 ∈ TOP_LEVEL_PARAMS
      · rw [processParams, if_pos hk0]
        exact ih _ _ h.2
      · rw [processParams, if_neg hk0, ih _ _ h.2, dictLookup_set_ne _ _ _ _ hne]
    | some v1 =>
      by_cases hk0 : k0 ∈ TOP_LEVEL_PARAMS
      · rw [processParams, if_pos hk0]
        exact ih _ _ h.2
      · rw [processParams, if_neg hk0, ih _ _ h.2, dictLookup_set_ne _ _ _ _ hne]

/-- A non-allow-listed key is never written to the top-level request. -/
theorem processParams_top_not_allowed {V : Type} (ps : List (String × Option V))
    (req : List (String × V)) (extra : List (String × Option V)) (k : String)
    (h : k ∉ TOP_LEVEL_PARAMS) :
    dictLookup (processParams ps req extra).top k = dictLookup req k := by
  induction ps generalizing req extra with
  | nil => rfl
  | cons hd tl ih =>
    obtain ⟨k0, v0⟩ := hd
    cases v0 with
    | none =>
      by_cases hk0 : k0 ∈ TOP_LEVEL_PARAMS
      · have hne : k0 ≠ k := fun hh => h (hh ▸ hk0)
        rw [processParams, if_pos hk0, ih, dictLookup_pop_ne _ _ _ hne]
      · rw [processParams, if_neg hk0]
        exact ih _ _
    | some v1 =>
      by_cases hk0 : k0 ∈ TOP_LEVEL_PARAMS
      · have hne : k0 ≠ k := fun hh => h (hh ▸ hk0)
        rw [processParams, if_pos hk0, ih, dictLookup_set_ne _ _ _ _ hne]
      · rw [processParams, if_neg hk0]
        exact ih _ _

/-- An allow-listed key passed with `None` ends up absent from the
top-level request. -/
theorem processParams_top_none {V : Type} (ps : List (String × Option V))
    (req : List (String × V)) (extra : List (String × Option V)) (k : String)
    (hnd : (ps.map Prod.fst).Nodup) (hreq : (req.map Prod.fst).Nodup)
    (hk : k ∈ TOP_LEVEL_PARAMS) (hin : (k, (none : Option V)) ∈ ps) :
    dictLookup (processParams ps req extra).top k = none := by
  induction ps generalizing req extra with
  | nil => exact absurd hin (List.not_mem_nil _)
  | cons hd tl ih =>
    obtain ⟨k0, v0⟩ := hd
    simp only [List.map_cons, List.nodup_cons] at hnd
    by_cases h0 : k0 = k
    · subst h0
      have hnotin : k0 ∉ tl.map Prod.fst := hnd.1
      have hv : v0 = none := by
        rcases List.mem_cons.mp hin with hh | hh
        · exact (Prod.ext_iff.mp hh).2.symm
        · exact absurd (List.mem_map_of_mem Prod.fst hh) hnotin
      subst hv
      rw [processParams, if_pos hk, processParams_top_notin tl _ extra k0 hnotin]
      exact dictLookup_pop_self req k0 hreq
    · have hin2 : (k, (none : Option V)) ∈ tl := by
        rcases List.mem_cons.mp hin with hh | hh
        · exact absurd (Prod.ext_iff.mp hh).1 (fun hh2 => h0 hh2.symm)
        · exact hh
      cases v0 with
      | none =>
        by_cases hk0 : k0 ∈ TOP_LEVEL_PARAMS
        · rw [processParams, if_pos hk0]
          exact ih _ _ hnd.2 (nodup_keys_dictPop req k0 hreq) hin2
        · rw [processParams, if_neg hk0]
          exact ih _ _ hnd.2 hreq hin2
      | some v1 =>
        by_cases hk0 : k0 ∈ TOP_LEVEL_PARAMS
        · rw [processParams, if_pos hk0]
          exact ih _ _ hnd.2 (nodup_keys_dictSet req k0 v1 hreq) hin2
        · rw [processParams, if_neg hk0]
          exact ih _ _ hnd.2 hreq hin2

/-- An allow-listed key passed with a value lands at top level with that
value. -/
theorem processParams_top_some {V : Type} (ps : List (String × Option V))
    (req : List (String × V)) (extra : List (String × Option V)) (k : String)
    (v : V) (hnd : (ps.map Prod.fst).Nodup) (hk : k ∈ TOP_LEVEL_PARAMS)
    (hin : (k, some v) ∈ ps) :
    dictLookup (processParams ps req extra).top k = some v := by
  induction ps generalizing req extra with
  | nil => exact absurd hin (List.not_mem_nil _)
  | cons hd tl ih =>
    obtain ⟨k0, v0⟩ := hd
    simp only [List.map_cons, List.nodup_cons] at hnd
    by_cases h0 : k0 = k
    · subst h0
      have hnotin : k0 ∉ tl.map Prod.fst := hnd.1
      have hv : v0 = some v := by
        rcases List.mem_cons.mp hin with hh | hh
        · exact (Prod.ext_iff.mp hh).2.symm
        · exact absurd (List.mem_map_of_mem Prod.fst hh) hnotin
      subst hv
      rw [processParams, if_pos hk, processParams_top_notin tl _ extra k0 hnotin]
      exact dictLookup_set_self req k0 v
    · have hin2 : (k, some v) ∈ tl := by
        rcases List.mem_cons.mp hin with hh | hh
        · exact absurd (Prod.ext_iff.mp hh).1 (fun hh2 => h0 hh2.symm)
        · exact hh
      cases v0 with
      | none =>
        by_cases hk0 : k0 ∈ TOP_LEVEL_PARAMS
        · rw [processParams, if_pos hk0]
          exact ih _ _ hnd.2 hin2
        · rw [processParams, if_neg hk0]
          exact ih _ _ hnd.2 hin2
      | some v1 =>
        by_cases hk0 : k0 ∈ TOP_LEVEL_PARAMS
        · rw [processParams, if_pos hk0]
          exact ih _ _ hnd.2 hin2
        · rw [processParams, if_neg hk0]
          exact ih _ _ hnd.2 hin2

/-- A non-allow-listed key lands in the extra body with its raw value
(`None` included). -/
theorem processParams_extra_some {V : Type} (ps : List (String × Option V))
    (req : List (String × V)) (extra : List (String × Option V)) (k : String)
    (v : Option V) (hnd : (ps.map Prod.fst).Nodup) (hk : k ∉ TOP_LEVEL_PARAMS)
    (hin : (k, v) ∈ ps) :
    dictLookup (processParams ps req extra).extraBody k = some v := by
  induction ps generalizing req extra with
  | nil => exact absurd hin (List.not_mem_nil _)
  | cons hd tl ih =>
    obtain ⟨k0, v0⟩ := hd
    simp only [List.map_cons, List.nodup_cons] at hnd
    by_cases h0 : k0 = k
    · subst h0
      have hnotin : k0 ∉ tl.map Prod.fst := hnd.1
      have hv : v0 = v := by
        rcases List.mem_cons.mp hin with hh | hh
        · exact (Prod.ext_iff.mp hh).2.symm
        · exact absurd (List.mem_map_of_mem Prod.fst hh) hnotin
      subst hv
      cases v0 with
      | none =>
        rw [processParams, if_neg hk, processParams_extra_notin tl req _ k0 hnotin]
        exact dictLookup_set_self extra k0 none
      | some v1 =>
        rw [processParams, if_neg hk, processParams_extra_notin tl req _ k0 hnotin]
        exact dictLookup_set_self extra k0 (some v1)
    · have hin2 : (k, v) ∈ tl := by
        rcases List.mem_cons.mp hin with hh | hh
        · exact absurd (Prod.ext_iff.mp hh).1 (fun hh2 => h0 hh2.symm)
        · exact hh
      cases v0 with
      | none =>
        by_cases hk0 : k0 ∈ TOP_LEVEL_PARAMS
        · rw [processParams, if_pos hk0]
          exact ih _ _ hnd.2 hin2
        · rw [processParams, if_neg hk0]
          exact ih _ _ hnd.2 hin2
      | some v1 =>
        by_cases hk0 : k0 ∈ TOP_LEVEL_PARAMS
        · rw [processParams, if_pos hk0]
          exact ih _ _ hnd.2 hin2
        · rw [processParams, if_neg hk0]
          exact ih _ _ hnd.2 hin2

/-- C9: in request assembly, an allow-listed parameter passed as null is
absent from the outbound top-level request (even for keys with built-in
defaults, which are in the initial request); an allow-listed parameter with
a value appears at top level with that value; any non-allow-listed key goes
to the extension object with its raw value and never changes the top-level
request. -/
theorem C9_parameter_partition {V : Type} (vModel vStream vMessages vTemp vTopP : V)
    (eb0 : List (String × Option V)) (ps : List (String × Option V))
    (hnd : (ps.map Prod.fst).Nodup) (k : String) :
    (k ∈ TOP_LEVEL_PARAMS → (k, (none : Option V)) ∈ ps →
      dictLookup (assembleRequest vModel vStream vMessages vTemp vTopP eb0 (some ps)).top k = none) ∧
    (∀ v : V, k ∈ TOP_LEVEL_PARAMS → (k, some v) ∈ ps →
      dictLookup (assembleRequest vModel vStream vMessages vTemp vTopP eb0 (some ps)).top k = some v) ∧
    (∀ v : Option V, k ∉ TOP_LEVEL_PARAMS → (k, v) ∈ ps →
      dictLookup (assembleRequest vModel vStream vMessages vTemp vTopP eb0 (some ps)).extraBody k = some v ∧
      dictLookup (assembleRequest vModel vStream vMessages vTemp vTopP eb0 (some ps)).top k =
        dictLookup (initRequestKwargs vModel vStream vMessages vTemp vTopP) k) := by
  have hreq : ((initRequestKwargs vModel vStream vMessages vTemp vTopP).map Prod.fst).Nodup := by
    have h5 : (initRequestKwargs vModel vStream vMessages vTemp vTopP).map Prod.fst =
        ["model", "stream", "messages", "temperature", "top_p"] := rfl
    rw [h5]
    decide
  refine ⟨?_, ?_, ?_⟩
  · intro hk hin
    exact processParams_top_none ps _ eb0 k hnd hreq hk hin
  · intro v hk hin
    exact processParams_top_some ps _ eb0 k v hnd hk hin
  · intro v hk hin
    exact ⟨processParams_extra_some ps _ eb0 k v hnd hk hin,
           processParams_top_not_allowed ps _ eb0 k hk⟩

/-- The parameters dict of the witness: null temperature, a set max_tokens,
and a non-allow-listed key. -/
def c9Params : List (String × Option String) :=
  [("temperature", none), ("max_tokens", some "100"),
   ("enable_thinking", some "true")]

/-- Closed instance of C9: temperature (a built-in default) passed as null
disappears, max_tokens lands at top level, enable_thinking goes to the
extension object. -/
theorem C9_parameter_partition_witness :
    dictLookup (assembleRequest "m" "false" "msgs" "0.6" "0.9"
      ([] : List (String × Option String)) (some c9Params)).top "temperature" = none ∧
    dictLookup (assembleRequest "m" "false" "msgs" "0.6" "0.9"
      ([] : List (String × Option String)) (some c9Params)).top "max_tokens" = some "100" ∧
    dictLookup (assembleRequest "m" "false" "msgs" "0.6" "0.9"
      ([] : List (String × Option String)) (some c9Params)).extraBody "enable_thinking" =
      some (some "true") := by
  have hnd : (c9Params.map Prod.fst).Nodup := by decide
  refine ⟨?_, ?_, ?_⟩
  · exact (C9_parameter_partition "m" "false" "msgs" "0.6" "0.9" [] c9Params hnd
      "temperature").1 (by decide) (by decide)
  · exact (C9_parameter_partition "m" "false" "msgs" "0.6" "0.9" [] c9Params hnd
      "max_tokens").2.1 "100" (by decide) (by decide)
  · exact ((C9_parameter_partition "m" "false" "msgs" "0.6" "0.9" [] c9Params hnd
      "enable_thinking").2.2 (some "true") (by decide) (by decide)).1


/-- C10: the adapter's success path never yields a null result — whatever
the backend's message content, a successful return is `some` string, and a
null content yields the empty string. -/
theorem C10_content_never_null :
    (∀ (resp : ChatResponse) (v : Option String),
      aqueryContentResult resp = Except.ok v → v ≠ none) ∧
    (∀ (resp : ChatResponse) (ch : ChatChoice) (rest : List ChatChoice),
      resp.choices = ch :: rest → ch.message.content = none →
      aqueryContentResult resp = Except.ok (some "")) := by
  constructor
  · rintro ⟨cs⟩ v h
    cases cs with
    | nil => simp [aqueryContentResult] at h
    | cons ch rest =>
      simp [aqueryContentResult] at h
      simp [← h]
  · rintro ⟨cs⟩ ch rest hc hn
    simp only [ChatResponse.choices] at hc
    subst hc
    simp [aqueryContentResult, pyOrEmpty, hn]

/-- Closed instance of C10 at a response whose first choice has null
content. -/
theorem C10_content_never_null_witness :
    aqueryContentResult ⟨[⟨⟨none⟩⟩]⟩ = Except.ok (some "") :=
  C10_content_never_null.2 ⟨[⟨⟨none⟩⟩]⟩ ⟨⟨none⟩⟩ [] rfl rfl

/-! ### Extractor lemmas and theorems (C5, C6, C7) -/

/-- A kept pair has a non-empty file name and truthy content. -/
theorem processItem_keep (item : XVal) (p : String × XVal)
    (h : processItem item = ItemStep.keep p) :
    p.1.isEmpty = false ∧ p.2.truthy = true := by
  cases item with
  | null => simp [processItem] at h
  | str s => simp [processItem] at h
  | dict entries =>
    rw [processItem] at h
    rcases hpl : (lookupEntry entries "path").getD [] with _ | ⟨p0, prest⟩
    · rw [hpl, processPathContent] at h
      simp at h
    · rcases hcl : (lookupEntry entries "content").getD [] with _ | ⟨c0, crest⟩
      · rw [hpl, hcl] at h
        have h5 : processPathContent (p0 :: prest) [] = ItemStep.skip := rfl
        rw [h5] at h
        simp at h
      · rw [hpl, hcl, processPathContent] at h
        by_cases ht : (!p0.truthy || !c0.truthy) = true
        · rw [if_pos ht] at h
          simp at h
        · rw [if_neg ht] at h
          have h2 : (!p0.truthy || !c0.truthy) = false := Bool.eq_false_iff.mpr ht
          have hc : c0.truthy = true := by
            have h3 := (Bool.or_eq_false_iff.mp h2).2
            simpa using h3
          cases p0 with
          | null => rw [processTruthyPath] at h; simp at h
          | dict d2 => rw [processTruthyPath] at h; simp at h
          | str s =>
            rw [processTruthyPath, processStrPath] at h
            by_cases hf : ((deriveFileName s).isEmpty ||
                (pyStrip (deriveFileName s)).isEmpty) = true
            · rw [if_pos hf] at h
              simp at h
            · rw [if_neg hf] at h
              injection h with h2
              subst h2
              have h4 := Bool.or_eq_false_iff.mp (Bool.eq_false_iff.mpr hf)
              exact ⟨h4.1, hc⟩

/-- Every pair of a successful loop run has a non-empty name and truthy
content. -/
theorem processCodeList_ok_pairs (items : List XVal)
    (l : List (String × XVal)) (h : processCodeList items = Except.ok l) :
    ∀ p ∈ l, p.1.isEmpty = false ∧ p.2.truthy = true := by
  induction items generalizing l with
  | nil =>
    intro p hp
    rw [processCodeList] at h
    injection h with h2
    subst h2
    exact absurd hp (List.not_mem_nil p)
  | cons item rest ih =>
    intro p hp
    rw [processCodeList] at h
    rcases hstep : processItem item with _ | q | e
    · rw [hstep] at h
      exact ih l h p hp
    · rw [hstep] at h
      rcases hrest : processCodeList rest with e | l2
      · rw [hrest] at h
        simp at h
      · rw [hrest] at h
        injection h with h2
        subst h2
        rcases List.mem_cons.mp hp with hh | hh
        · subst hh
          exact processItem_keep item p hstep
        · exact ih l2 hrest p hh
    · rw [hstep] at h
      simp at h

/-- A successful `formatResponseE` comes from a successful code-list loop. -/
theorem formatResponseE_ok_shape (r : String) (l : List (String × XVal))
    (h : formatResponseE r = Except.ok l) :
    ∃ items, processCodeList items = Except.ok l := by
  rw [formatResponseE] at h
  rcases hxd : xml_to_dict (extract_xml_from_response r) with e | pr
  · rw [hxd] at h
    simp at h
  · obtain ⟨rootTag, rootVal⟩ := pr
    rw [hxd] at h
    have h2 : formatResponseBody rootTag rootVal = Except.ok l := h
    rw [formatResponseBody] at h2
    rcases hcodes : (if rootTag = "result" then rootVal else XVal.dict []) with
      _ | s | entries
    · rw [hcodes] at h2
      have h5 : formatResponseCodes XVal.null =
          Except.error "no valid xml content found in LLM response" := rfl
      rw [h5] at h2
      simp at h2
    · rw [hcodes] at h2
      have h5 : formatResponseCodes (XVal.str s) =
          Except.error "no valid xml content found in LLM response" := rfl
      rw [h5] at h2
      simp at h2
    · rw [hcodes, formatResponseCodes] at h2
      by_cases hempty : ((lookupEntry entries "code").getD []).isEmpty = true
      · rw [if_pos hempty] at h2
        simp at h2
      · rw [if_neg hempty] at h2
        exact ⟨_, h2⟩

/-- C6: for every input, the extractor result is a list whose pairs all
have a non-empty file name and non-empty (truthy) content; any internally
raised exception yields the empty list together with exactly two log lines
whose input preview is capped at 500 characters; in particular malformed
XML (a parse error) yields the empty list.  Totality of `format_response`
(it never raises) is by construction: the catch-all handler maps every
`.error` to `[]`. -/
theorem C6_extractor_safety (r : String) :
    (∀ p ∈ format_response r, p.1.isEmpty = false ∧ p.2.truthy = true) ∧
    (∀ e, formatResponseE r = Except.error e → format_response r = [] ∧
      formatResponseLogs r = ["Error processing XML code: " ++ e,
        "XML content preview: " ++ (⟨r.data.take 500⟩ : String) ++ "..."] ∧
      (r.data.take 500).length ≤ 500) ∧
    (∀ e, xml_to_dict (extract_xml_from_response r) = Except.error e →
      format_response r = []) := by
  refine ⟨?_, ?_, ?_⟩
  · intro p hp
    rw [format_response] at hp
    rcases hE : formatResponseE r with e | l
    · rw [hE] at hp
      exact absurd hp (List.not_mem_nil p)
    · rw [hE] at hp
      obtain ⟨items, hitems⟩ := formatResponseE_ok_shape r l hE
      exact processCodeList_ok_pairs items l hitems p hp
  · intro e hE
    refine ⟨?_, ?_, ?_⟩
    · rw [format_response, hE]
    · rw [formatResponseLogs, hE]
    · rw [List.length_take]
      exact min_le_left _ _
  · intro e hxd
    rw [format_response, formatResponseE, hxd]

/-- Closed instance of C6 at a malformed input. -/
theorem C6_extractor_safety_witness :
    format_response "hello" = [] ∧
    formatResponseLogs "hello" =
      ["Error processing XML code: xml parse error: expected element",
       "XML content preview: hello..."] := by
  have h := (C6_extractor_safety "hello").2.1 "xml parse error: expected element" rfl
  exact ⟨h.1, h.2.1⟩

/-- A response holding two bare (unfenced) `<result>` envelopes. -/
def twoBlocksResponse : String :=
  "sure! <result><code><path>src/a.py</path><content>A</content></code></result> wait: <result><code><path>b.py</path><content>B</content></code></result> done"

/-- C7: candidate selection — a fenced envelope match is the candidate when
one exists; otherwise the last bare `<result>…</result>` occurrence;
otherwise the whole input; and concretely, a response with two unfenced
`<result>` blocks yields only the entries of the second block. -/
theorem C7_candidate_selection :
    (∀ r g, searchFenced r = some g → extract_xml_from_response r = g) ∧
    (∀ r m, searchFenced r = none → (findAllResults r).getLast? = some m →
      extract_xml_from_response r = m) ∧
    (∀ r, searchFenced r = none → (findAllResults r).getLast? = none →
      extract_xml_from_response r = r) ∧
    format_response twoBlocksResponse = [("b.py", XVal.str "B")] := by
  refine ⟨?_, ?_, ?_, ?_⟩
  · intro r g h
    rw [extract_xml_from_response, h]
  · intro r m h1 h2
    rw [extract_xml_from_response, h1, h2]
  · intro r h1 h2
    rw [extract_xml_from_response, h1, h2]
  · rfl

/-- Closed instance of C7: on the two-block response the candidate is the
second (last) envelope. -/
theorem C7_candidate_selection_witness :
    extract_xml_from_response twoBlocksResponse =
      "<result><code><path>b.py</path><content>B</content></code></result>" :=
  C7_candidate_selection.2.1 twoBlocksResponse
    "<result><code><path>b.py</path><content>B</content></code></result>" rfl rfl

/-- A response whose envelope has one well-formed entry and one entry whose
path ends in a separator (empty final segment). -/
def c5BadResponse : String :=
  "<result><code><path>good.py</path><content>G</content></code><code><path>bad/</path><content>B</content></code></result>"

/-- The parsed first (well-formed) code entry of `c5BadResponse`. -/
def c5GoodItem : XVal :=
  XVal.dict [("path", [XVal.str "good.py"]), ("content", [XVal.str "G"])]

/-- The parsed second (empty-file-name) code entry of `c5BadResponse`. -/
def c5BadItem : XVal :=
  XVal.dict [("path", [XVal.str "bad/"]), ("content", [XVal.str "B"])]

/-- C5 counterexample: an entry with an empty final path segment does not
merely drop that entry — it empties the whole result.  With the bad entry
present the well-formed sibling entry is not returned, although on its own
it extracts fine. -/
theorem C5_empty_name_counterexample :
    format_response c5BadResponse = [] ∧
    format_response goodOnlyResponse = [("good.py", XVal.str "G")] :=
  ⟨rfl, rfl⟩

/-- A raising entry anywhere in the code list aborts the whole loop. -/
theorem processCodeList_error_of_raise (items : List XVal) (item : XVal)
    (e0 : String) (hmem : item ∈ items)
    (hraise : processItem item = ItemStep.raiseErr e0) :
    ∃ e, processCodeList items = Except.error e := by
  induction items with
  | nil => exact absurd hmem (List.not_mem_nil item)
  | cons hd tl ih =>
    rcases List.mem_cons.mp hmem with hh | hh
    · subst hh
      rw [processCodeList, hraise]
      exact ⟨e0, rfl⟩
    · rcases hstep : processItem hd with _ | q | e1
      · rw [processCodeList, hstep]
        exact ih hh
      · rw [processCodeList, hstep]
        obtain ⟨e1, he⟩ := ih hh
        rw [he]
        exact ⟨e1, rfl⟩
      · rw [processCodeList, hstep]
        exact ⟨e1, rfl⟩

/-- C5 amended: when the parsed envelope's code list contains an entry
whose path yields an empty file name, the raised `ValueError` propagates to
the catch-all handler and the extractor returns the empty list, dropping
every other entry of the same response as well. -/
theorem C5_empty_name_aborts_batch (r : String)
    (entries : List (String × List XVal)) (codeList : List XVal)
    (hxd : xml_to_dict (extract_xml_from_response r) =
      Except.ok ("result", XVal.dict entries))
    (hcl : lookupEntry entries "code" = some codeList)
    (hbad : ∃ item ∈ codeList, processItem item =
      ItemStep.raiseErr "Invalid file path: unable to extract file name") :
    format_response r = [] := by
  obtain ⟨item, hmem, hraise⟩ := hbad
  obtain ⟨e, he⟩ := processCodeList_error_of_raise codeList item _ hmem hraise
  have hgetd : (lookupEntry entries "code").getD [] = codeList := by
    rw [hcl]
    rfl
  have hne : ((lookupEntry entries "code").getD []).isEmpty = false := by
    rw [hgetd]
    cases codeList with
    | nil => exact absurd hmem (List.not_mem_nil item)
    | cons a b => rfl
  have hbody : formatResponseBody "result" (XVal.dict entries) = Except.error e := by
    rw [formatResponseBody, if_pos rfl, formatResponseCodes,
      if_neg (by rw [hne]; exact Bool.false_ne_true), hgetd]
    exact he
  have hE : formatResponseE r = Except.error e := by
    rw [formatResponseE, hxd]
    exact hbody
  rw [format_response, hE]

/-- Closed instance of the amended C5 at the concrete two-entry response. -/
theorem C5_empty_name_aborts_batch_witness :
    format_response c5BadResponse = [] :=
  C5_empty_name_aborts_batch c5BadResponse
    [("code", [c5GoodItem, c5BadItem])] [c5GoodItem, c5BadItem]
    rfl rfl
    ⟨c5BadItem, List.mem_cons_of_mem c5GoodItem (List.mem_cons_self c5BadItem []),
      rfl⟩

end SecCodeBench
